import Mathlib

/-!
Verification of the gcs-release-monitor pipeline against its specification.

The definitions below are a shallow embedding of the Python sources under
src/gcs_release_monitor: webhook_client.py (canonical JSON signing),
monitor.py (cycle orchestration, candidate filtering, release-tag and
remote-path computation), release_notes.py (notes extraction), state.py
(state persistence round trip), config.py (configuration validation) and
gcs_client.py (candidate archive filter).  Machine integers are modelled as
Nat with explicit reduction modulo 2^32 where the hash computation wraps;
byte strings are lists of Nat below 256; Python dicts are association lists
in insertion order; raised exceptions are Except values or explicit flags.
-/

set_option maxRecDepth 16384

namespace GcsReleaseMonitor

/-! ## Bytes and UTF-8 (models Python str.encode("utf-8")) -/

/-- UTF-8 encoding of a single unicode code point, as in CPython's
str.encode("utf-8"). -/
def utf8Bytes (c : Char) : List Nat :=
  let n := c.toNat
  if n < 0x80 then [n]
  else if n < 0x800 then [0xC0 ||| (n >>> 6), 0x80 ||| (n &&& 0x3F)]
  else if n < 0x10000 then
    [0xE0 ||| (n >>> 12), 0x80 ||| ((n >>> 6) &&& 0x3F), 0x80 ||| (n &&& 0x3F)]
  else
    [0xF0 ||| (n >>> 18), 0x80 ||| ((n >>> 12) &&& 0x3F),
     0x80 ||| ((n >>> 6) &&& 0x3F), 0x80 ||| (n &&& 0x3F)]

/-- UTF-8 encoding of a string, as in Python s.encode("utf-8"). -/
def utf8Encode (s : String) : List Nat :=
  (s.data.map utf8Bytes).flatten

/-! ## SHA-256 (models Python hashlib.sha256) -/

def MOD32 : Nat := 4294967296

def add32 (a b : Nat) : Nat := (a + b) % MOD32

def rotr32 (n x : Nat) : Nat := ((x >>> n) ||| (x <<< (32 - n))) % MOD32

/-- Bitwise complement within 32 bits: for x < 2^32 this is 2^32 - 1 - x. -/
def not32 (x : Nat) : Nat := 4294967295 - x

def bigSigma0 (x : Nat) : Nat := (rotr32 2 x) ^^^ (rotr32 13 x) ^^^ (rotr32 22 x)
def bigSigma1 (x : Nat) : Nat := (rotr32 6 x) ^^^ (rotr32 11 x) ^^^ (rotr32 25 x)
def smallSigma0 (x : Nat) : Nat := (rotr32 7 x) ^^^ (rotr32 18 x) ^^^ (x >>> 3)
def smallSigma1 (x : Nat) : Nat := (rotr32 17 x) ^^^ (rotr32 19 x) ^^^ (x >>> 10)

def shaCh (e f g : Nat) : Nat := (e &&& f) ^^^ ((not32 e) &&& g)
def shaMaj (a b c : Nat) : Nat := (a &&& b) ^^^ (a &&& c) ^^^ (b &&& c)

/-- SHA-256 round constants (FIPS 180-4). -/
def K256 : List Nat :=
  [1116352408, 1899447441, 3049323471, 3921009573, 961987163,
   1508970993, 2453635748, 2870763221, 3624381080, 310598401,
   607225278, 1426881987, 1925078388, 2162078206, 2614888103,
   3248222580, 3835390401, 4022224774, 264347078, 604807628,
   770255983, 1249150122, 1555081692, 1996064986, 2554220882,
   2821834349, 2952996808, 3210313671, 3336571891, 3584528711,
   113926993, 338241895, 666307205, 773529912, 1294757372,
   1396182291, 1695183700, 1986661051, 2177026350, 2456956037,
   2730485921, 2820302411, 3259730800, 3345764771, 3516065817,
   3600352804, 4094571909, 275423344, 430227734, 506948616,
   659060556, 883997877, 958139571, 1322822218, 1537002063,
   1747873779, 1955562222, 2024104815, 2227730452, 2361852424,
   2428436474, 2756734187, 3204031479, 3329325298]

/-- Working state of the SHA-256 compression function: eight 32-bit words. -/
structure Digest8 where
  a : Nat
  b : Nat
  c : Nat
  d : Nat
  e : Nat
  f : Nat
  g : Nat
  h : Nat
deriving Repr, DecidableEq

/-- Initial SHA-256 hash value (FIPS 180-4). -/
def initH : Digest8 :=
  ⟨1779033703, 3144134277, 1013904242, 2773480762,
   1359893119, 2600822924, 528734635, 1541459225⟩

/-- Big-endian byte encoding of a natural number in k bytes. -/
def natToBytesBE (k n : Nat) : List Nat :=
  (List.range k).map (fun i => (n >>> (8 * (k - 1 - i))) &&& 0xFF)

/-- Group a byte list into big-endian 32-bit words. -/
def bytesToWords : List Nat → List Nat
  | a :: b :: c :: d :: rest =>
      ((a <<< 24) ||| (b <<< 16) ||| (c <<< 8) ||| d) :: bytesToWords rest
  | _ => []

/-- SHA-256 message padding: append 0x80, zeros to 56 mod 64, then the
bit length as 8 big-endian bytes. -/
def sha256Pad (msg : List Nat) : List Nat :=
  let len := msg.length
  let zeros := (120 - ((len + 1) % 64)) % 64
  msg ++ (0x80 :: List.replicate zeros 0) ++ natToBytesBE 8 (len * 8)

/-- Split a byte list into 64-byte blocks, with a structural fuel bound
(the fuel is an upper bound on the number of blocks). -/
def chunk64Fuel : Nat → List Nat → List (List Nat)
  | 0, _ => []
  | _ + 1, [] => []
  | fuel + 1, l => l.take 64 :: chunk64Fuel fuel (l.drop 64)

/-- Split a byte list into 64-byte blocks. -/
def chunk64 (l : List Nat) : List (List Nat) := chunk64Fuel l.length l

/-- Message-schedule extension: prepend 48 new words onto the reversed
16-word block, reading w[i-2], w[i-7], w[i-15], w[i-16] from the front. -/
def extendLoop : Nat → List Nat → List Nat
  | 0, acc => acc.reverse
  | n + 1, acc =>
      let w :=
        add32 (add32 (smallSigma1 (acc.getD 1 0)) (acc.getD 6 0))
          (add32 (smallSigma0 (acc.getD 14 0)) (acc.getD 15 0))
      extendLoop n (w :: acc)

/-- The 64-word message schedule of one block. -/
def schedule (block : List Nat) : List Nat := extendLoop 48 block.reverse

/-- One round of the SHA-256 compression function. -/
def compressStep (st : Digest8) (kw : Nat × Nat) : Digest8 :=
  let t1 :=
    add32 st.h (add32 (bigSigma1 st.e) (add32 (shaCh st.e st.f st.g) (add32 kw.1 kw.2)))
  let t2 := add32 (bigSigma0 st.a) (shaMaj st.a st.b st.c)
  ⟨add32 t1 t2, st.a, st.b, st.c, add32 st.d t1, st.e, st.f, st.g⟩

/-- Compress one 16-word block into the running hash. -/
def compressBlock (h0 : Digest8) (block : List Nat) : Digest8 :=
  let fin := (K256.zip (schedule block)).foldl compressStep h0
  ⟨add32 h0.a fin.a, add32 h0.b fin.b, add32 h0.c fin.c, add32 h0.d fin.d,
   add32 h0.e fin.e, add32 h0.f fin.f, add32 h0.g fin.g, add32 h0.h fin.h⟩

/-- SHA-256 digest of a byte list, as a list of 32 bytes. -/
def sha256Bytes (msg : List Nat) : List Nat :=
  let fin := (chunk64 (sha256Pad msg)).foldl (fun h b => compressBlock h (bytesToWords b)) initH
  ([fin.a, fin.b, fin.c, fin.d, fin.e, fin.f, fin.g, fin.h].map (natToBytesBE 4)).flatten

/-- Lowercase hex digit. -/
def hexDigitChar (n : Nat) : Char :=
  if n < 10 then Char.ofNat (48 + n) else Char.ofNat (87 + n)

/-- Lowercase hex encoding of one byte. -/
def byteToHex (b : Nat) : String :=
  String.mk [hexDigitChar (b / 16), hexDigitChar (b % 16)]

/-- Lowercase hex encoding of a byte list, as in Python hexdigest(). -/
def bytesToHex (bs : List Nat) : String :=
  String.join (bs.map byteToHex)

/-- HMAC-SHA256 (RFC 2104), as in Python hmac.new(key, msg, hashlib.sha256). -/
def hmacSha256 (key msg : List Nat) : List Nat :=
  let key1 := if 64 < key.length then sha256Bytes key else key
  let key2 := key1 ++ List.replicate (64 - key1.length) 0
  let ipadKey := key2.map (fun b => b ^^^ 0x36)
  let opadKey := key2.map (fun b => b ^^^ 0x5C)
  sha256Bytes (opadKey ++ sha256Bytes (ipadKey ++ msg))

/-! ## Canonical JSON (models Python json.dumps with sort_keys=True,
separators=(",", ":"), ensure_ascii=True) -/

mutual

/-- JSON values, as Python passes them to json.dumps. -/
inductive JsonValue where
  | null
  | boolean (b : Bool)
  | num (n : Int)
  | str (s : String)
  | arr (items : JsonArr)
  | obj (fields : JsonObj)

/-- A JSON array of values. -/
inductive JsonArr where
  | nil
  | cons (head : JsonValue) (tail : JsonArr)

/-- A JSON object: fields in dict insertion order. -/
inductive JsonObj where
  | nil
  | cons (key : String) (val : JsonValue) (tail : JsonObj)

end

/-- A JSON object field list from a Lean association list. -/
def listToObj : List (String × JsonValue) → JsonObj
  | [] => .nil
  | (k, v) :: rest => .cons k v (listToObj rest)

/-- Four lowercase hex digits, as in Python "\\u%04x" escapes. -/
def hex4 (n : Nat) : String :=
  String.mk [hexDigitChar ((n >>> 12) &&& 15), hexDigitChar ((n >>> 8) &&& 15),
             hexDigitChar ((n >>> 4) &&& 15), hexDigitChar (n &&& 15)]

/-- Escape of one character in a JSON string literal, following CPython's
json encoder with ensure_ascii=True: printable ASCII other than quote and
backslash passes through, the usual short escapes apply, and everything
else becomes a unicode escape (with surrogate pairs above 0xFFFF). -/
def escapeChar (c : Char) : String :=
  if c = '"' then "\\\""
  else if c = '\\' then "\\\\"
  else if c = '\n' then "\\n"
  else if c = '\r' then "\\r"
  else if c = '\t' then "\\t"
  else if c.toNat = 8 then "\\b"
  else if c.toNat = 12 then "\\f"
  else if 0x20 ≤ c.toNat ∧ c.toNat ≤ 0x7E then String.mk [c]
  else if c.toNat < 0x10000 then "\\u" ++ hex4 c.toNat
  else
    let v := c.toNat - 0x10000
    "\\u" ++ hex4 (0xD800 + (v >>> 10)) ++ "\\u" ++ hex4 (0xDC00 + (v &&& 0x3FF))

/-- JSON string literal with surrounding quotes. -/
def quoteJson (s : String) : String :=
  "\"" ++ String.join (s.data.map escapeChar) ++ "\""

/-- Lexicographic strict order on code-point sequences: Python's string
less-than. -/
def ltChars : List Char → List Char → Bool
  | [], [] => false
  | [], _ :: _ => true
  | _ :: _, [] => false
  | a :: as, b :: bs =>
      if a.toNat < b.toNat then true
      else if b.toNat < a.toNat then false
      else ltChars as bs

/-- Python strict string comparison a < b (code-point lexicographic). -/
def pyStrLt (a b : String) : Bool := ltChars a.data b.data

/-- Python string comparison a <= b, as the negation of b < a. -/
def pyStrLe (a b : String) : Prop := pyStrLt b a = false

instance : DecidableRel pyStrLe := fun a b => inferInstanceAs (Decidable (pyStrLt b a = false))

/-- Order on rendered object fields: by key, with Python's code-point
string order. -/
def keyLe (a b : String × String) : Prop := pyStrLe a.1 b.1

instance : DecidableRel keyLe := fun a b => inferInstanceAs (Decidable (pyStrLe a.1 b.1))

/-- Strict key order on rendered object fields. -/
def keyLt (a b : String × String) : Prop := pyStrLt a.1 b.1 = true

mutual

/-- Canonical JSON rendering of a value: json.dumps(v, sort_keys=True,
separators=(",", ":")).  Object fields are rendered in place and then
sorted by key; since dict keys are unique this agrees with CPython's
sorted(dct.items()) (a stable sort comparing keys first). -/
def dumpsVal : JsonValue → String
  | .null => "null"
  | .boolean true => "true"
  | .boolean false => "false"
  | .num n => toString n
  | .str s => quoteJson s
  | .arr items => "[" ++ String.intercalate "," (dumpsArr items) ++ "]"
  | .obj fields =>
      "\x7b" ++
        String.intercalate ","
          (((dumpsObj fields).insertionSort keyLe).map
            (fun kv => quoteJson kv.1 ++ ":" ++ kv.2)) ++ "\x7d"

/-- Renderings of the elements of a JSON array, in order. -/
def dumpsArr : JsonArr → List String
  | .nil => []
  | .cons v rest => dumpsVal v :: dumpsArr rest

/-- Renderings of the fields of a JSON object, in insertion order:
each key paired with the rendering of its value. -/
def dumpsObj : JsonObj → List (String × String)
  | .nil => []
  | .cons k v rest => (k, dumpsVal v) :: dumpsObj rest

end

/-! ## build_signed_payload (webhook_client.py lines 22-27) -/

/-- Result record of build_signed_payload, as in webhook_client.py:
timestamp and signature strings plus the canonical body bytes. -/
structure SignedWebhookPayload where
  timestamp : String
  signature : String
  body : List Nat
deriving Repr, DecidableEq

/-- Shallow embedding of build_signed_payload (webhook_client.py lines
22-27) in the case where the timestamp override is given, so the
int(time.time()) branch is not taken.  The payload dict is a JsonValue
object. -/
def build_signed_payload (payload : JsonValue) (secret : String) (timestamp : Int) :
    SignedWebhookPayload :=
  let unix_ts := timestamp
  let body := utf8Encode (dumpsVal payload)
  let signed := utf8Encode (toString unix_ts ++ ".") ++ body
  let digest := bytesToHex (hmacSha256 (utf8Encode secret) signed)
  ⟨toString unix_ts, "sha256=" ++ digest, body⟩

/-! ## Release-notes truncation (release_notes.py lines 124-130) -/

def MAX_NOTE_CHARS : Nat := 40000

/-- Shallow embedding of release_notes.py _truncate_notes: texts longer
than MAX_NOTE_CHARS characters are cut to that length and a marker line
is appended. -/
def truncate_notes (text : String) : String :=
  if text.length ≤ MAX_NOTE_CHARS then text
  else
    text.take MAX_NOTE_CHARS ++
      "\n\n[release notes truncated for webhook payload size; full notes available in artifact]"

/-! ## Version-tag regular expression (monitor.py line 22) and
extract_release_tag (monitor.py lines 411-421) -/

/-- ASCII alphanumeric class [0-9A-Za-z]. -/
def isAlnumAscii (c : Char) : Bool := c.isDigit || c.isUpper || c.isLower

/-- Character class [0-9A-Za-z.-] of the version-suffix tail. -/
def isSuffixTail (c : Char) : Bool := isAlnumAscii c || c = '.' || c = '-'

/-- Python whitespace class backslash-s restricted to ASCII (space, tab,
newline, carriage return, vertical tab, form feed). -/
def isPySpace (c : Char) : Bool :=
  c = ' ' || c = '\t' || c = '\n' || c = '\r' || c = '\x0b' || c = '\x0c'

/-- Greedy match of up to max components of the form dot-digits, as the
regex fragment (\.\d+) repeated: returns the number of components, the
number of characters consumed, and the rest.  Since nothing later in the
version pattern can match a dot or a digit, maximal munch agrees with the
backtracking regex. -/
def takeComponents : Nat → List Char → Nat × Nat × List Char
  | 0, rest => (0, 0, rest)
  | n + 1, rest =>
      match rest with
      | '.' :: rest1 =>
          let ds := rest1.takeWhile Char.isDigit
          if ds = [] then (0, 0, rest)
          else
            let r := takeComponents n (rest1.drop ds.length)
            (r.1 + 1, r.2.1 + 1 + ds.length, r.2.2)
      | _ => (0, 0, rest)

/-- Greedy match of the version core (digits, one to three dot-digit
components, optional dash suffix) at the head of the character list:
the regex fragment \d+(\.\d+)\x7b1,3\x7d(-[0-9A-Za-z][0-9A-Za-z.-]*)?
of monitor.py line 22 and release_notes.py line 9.  Returns the matched
length. -/
def matchNumCore (cs : List Char) : Option Nat :=
  let ds := cs.takeWhile Char.isDigit
  if ds = [] then none
  else
    let comps := takeComponents 3 (cs.drop ds.length)
    if comps.1 = 0 then none
    else
      let sufLen :=
        match comps.2.2 with
        | '-' :: c :: tail => if isAlnumAscii c then 2 + (tail.takeWhile isSuffixTail).length else 0
        | _ => 0
      some (ds.length + comps.2.1 + sufLen)

/-- Match of the full version pattern (a leading v then the version core)
at the head of the character list, as _VERSION_PATTERN of monitor.py. -/
def matchVersionAt : List Char → Option Nat
  | 'v' :: rest => (matchNumCore rest).map (1 + ·)
  | _ => none

/-- Leftmost search of _VERSION_PATTERN, as re.search: try each start
position left to right and return the first match. -/
def searchVersionChars : List Char → Option (List Char)
  | [] => none
  | c :: rest =>
      match matchVersionAt (c :: rest) with
      | some len => some ((c :: rest).take len)
      | none => searchVersionChars rest

/-- re.search of _VERSION_PATTERN over a string, returning the matched
substring. -/
def searchVersion (s : String) : Option String :=
  (searchVersionChars s.data).map String.mk

/-- Split a character list at a separator, keeping empty segments, as
Python str.split with an explicit separator. -/
def splitChars (sep : Char) : List Char → List (List Char)
  | [] => [[]]
  | c :: rest =>
      let r := splitChars sep rest
      if c = sep then [] :: r
      else
        match r with
        | h :: t => (c :: h) :: t
        | [] => [[c]]

/-- Split a string on slashes. -/
def splitSlash (s : String) : List String := (splitChars '/' s.data).map String.mk

/-- Path components of a relative POSIX path, as pathlib PurePosixPath
parts for the bucket object names the monitor sees: empty segments and
single dots are dropped. -/
def pathParts (name : String) : List String :=
  (splitSlash name).filter (fun seg => ¬ (seg = "" ∨ seg = "."))

/-- Final path component, as pathlib Path(name).name for relative paths. -/
def pathBasename (name : String) : String := (pathParts name).getLastD ""

/-- Shallow embedding of extract_release_tag (monitor.py lines 411-421):
search the basename for the version pattern, then the parent segments
right to left, else fall back to gcs- plus the generation. -/
def extract_release_tag (object_name : String) (fallback_generation : String) : String :=
  match searchVersion (pathBasename object_name) with
  | some m => m
  | none =>
      match ((pathParts object_name).dropLast.reverse).findSome? searchVersion with
      | some m => m
      | none => "gcs-" ++ fallback_generation

/-! ## Object metadata (types.py) -/

/-- Shallow embedding of types.py ObjectMetadata. -/
structure ObjectMetadata where
  bucket : String
  name : String
  size : Nat
  content_type : Option String
  generation : String
  metageneration : Option String
  md5_hash : Option String
  crc32c : Option String
  etag : Option String
  updated : String
  time_created : Option String
deriving Repr, DecidableEq

/-- Python str.startswith. -/
def strStartsWith (s p : String) : Bool := p.data.isPrefixOf s.data

/-- Python str.endswith for a single suffix. -/
def strEndsWith (s p : String) : Bool := p.data.isSuffixOf s.data

/-- ASCII lowercasing, as str.lower on the ASCII names and content types
the monitor compares. -/
def toLowerStr (s : String) : String := String.mk (s.data.map Char.toLower)

/-- Derived object_id property: name then hash sign then generation. -/
def ObjectMetadata.object_id (obj : ObjectMetadata) : String :=
  obj.name ++ "#" ++ obj.generation

/-- Derived gs_url property. -/
def ObjectMetadata.gs_url (obj : ObjectMetadata) : String :=
  "gs://" ++ obj.bucket ++ "/" ++ obj.name

/-- Derived is_file property: positive size and no trailing slash. -/
def ObjectMetadata.is_file (obj : ObjectMetadata) : Bool :=
  0 < obj.size && !(strEndsWith obj.name "/")

/-! ## Remote-path construction (monitor.py lines 256-271) -/

/-- Shallow embedding of MonitorService._build_remote_path, with the two
configuration inputs (nextcloud.remote_dir and chain.organization) passed
explicitly. -/
def build_remote_path (remote_root organization filename : String) (obj : ObjectMetadata) :
    String :=
  let release_tag := extract_release_tag obj.name obj.generation
  let versionPre := release_tag ++ "-"
  let versioned_filename :=
    if strStartsWith filename versionPre then filename else versionPre ++ filename
  let filename_with_generation := versioned_filename ++ "-g" ++ obj.generation
  String.intercalate "/" [remote_root, organization, filename_with_generation]

/-- Final slash-separated segment of a path string. -/
def lastSegment (path : String) : String := (splitSlash path).getLastD ""

/-! ## Candidate filtering (gcs_client.py lines 186-194, monitor.py
lines 87-100) -/

/-- Shallow embedding of types.py Snapshot: the objects dict is an
association list in insertion order keyed by object_id. -/
structure Snapshot where
  bucket : String
  captured_at : String
  objects : List (String × ObjectMetadata)
deriving Repr, DecidableEq

/-- Membership of the object's content type in the configured content
types, lowercased on both sides, with Python truthiness on the optional
content type (gcs_client.py line 191). -/
def contentTypeHit (obj : ObjectMetadata) (content_types : List String) : Bool :=
  match obj.content_type with
  | some ct => ct ≠ "" && (content_types.map toLowerStr).contains (toLowerStr ct)
  | none => false

/-- Whether the lowercased object name ends with one of the lowercased
configured suffixes (gcs_client.py lines 193-194). -/
def suffixHit (obj : ObjectMetadata) (suffixes : List String) : Bool :=
  (suffixes.map toLowerStr).any (fun suf => strEndsWith (toLowerStr obj.name) suf)

/-- Shallow embedding of is_candidate_archive (gcs_client.py lines
186-194): regular files whose content type is configured or whose
lowercased name ends with a configured suffix. -/
def is_candidate_archive (obj : ObjectMetadata) (suffixes content_types : List String) : Bool :=
  if !obj.is_file then false
  else if contentTypeHit obj content_types then true
  else suffixHit obj suffixes

/-- Ascending order on the updated timestamp strings, as the sort key of
_new_candidate_objects. -/
def updatedLe (a b : ObjectMetadata) : Prop := pyStrLe a.updated b.updated

instance : DecidableRel updatedLe := fun a b => inferInstanceAs (Decidable (pyStrLe a.updated b.updated))

/-- Object ids of the previous snapshot, empty when there is none
(monitor.py line 88). -/
def previousIds (previous : Option Snapshot) : List String :=
  match previous with
  | some p => p.objects.map Prod.fst
  | none => []

/-- Shallow embedding of MonitorService._new_candidate_objects (monitor.py
lines 87-100).  The source iterates the keys of the current snapshot dict
and indexes the dict; with unique keys this is iteration over the entries
in insertion order.  Python's sorted is stable, which insertion sort
mirrors exactly. -/
def new_candidate_objects (previous : Option Snapshot) (current : Snapshot)
    (suffixes content_types : List String) : List ObjectMetadata :=
  let news := current.objects.filter (fun p => !((previousIds previous).contains p.1))
  let candidates :=
    (news.map Prod.snd).filter (fun obj => is_candidate_archive obj suffixes content_types)
  candidates.insertionSort updatedLe

/-! ## State round trip (state.py, types.py ProcessingRecord) -/

/-- Shallow embedding of types.py ProcessingRecord.  Each upload entry is
the raw JSON dict of nullable strings the source stores. -/
structure ProcessingRecord where
  processed_at : String
  nextcloud_path : String
  nextcloud_url : String
  share_url : Option String
  webhook_delivered_at : String
  uploads : List (List (String × Option String))
deriving Repr, DecidableEq

/-- MonitorState.processed as an association list in insertion order. -/
abbrev MonitorState := List (String × ProcessingRecord)

/-- Reconstruction of one record by MonitorState.from_dict (state.py lines
28-48) from the JSON document that as_dict wrote for it: an empty uploads
list is replaced by a synthesized archive entry, and a falsy share_url
(absent or empty) becomes null. -/
def record_from_dict (record : ProcessingRecord) : ProcessingRecord :=
  let share :=
    match record.share_url with
    | some s => if s = "" then none else some s
    | none => none
  let uploads :=
    if record.uploads = [] then
      [[("artifact_type", some "archive"), ("artifact_name", none), ("source_member", none),
        ("nextcloud_path", some record.nextcloud_path),
        ("nextcloud_url", some record.nextcloud_url),
        ("share_url", share)]]
    else record.uploads
  { processed_at := record.processed_at
    nextcloud_path := record.nextcloud_path
    nextcloud_url := record.nextcloud_url
    share_url := share
    webhook_delivered_at := record.webhook_delivered_at
    uploads := uploads }

/-- Composition of StateStore.save_state and StateStore.load_state
(state.py lines 62-70): as_dict writes each field verbatim as JSON, the
JSON layer is the identity on this document shape, and from_dict rebuilds
each record with record_from_dict, preserving keys and their order. -/
def save_then_load (state : MonitorState) : MonitorState :=
  state.map (fun p => (p.1, record_from_dict p.2))

/-! ## Configuration validation (config.py) -/

/-- The unconditional top-level required keys of config.py line 96. -/
def REQUIRED_TOP_LEVEL : List String := ["gcs", "nextcloud", "webhook", "chain"]

/-- Shallow embedding of the _required check (config.py lines 99-102). -/
def required_key (rawKeys : List String) (key parent : String) : Except String Unit :=
  if rawKeys.contains key then .ok ()
  else .error ("Missing required key " ++ key ++ " in " ++ parent)

/-- Shallow embedding of the top-level key validation loop of load_config
(config.py lines 227-228).  It runs before any section parsing, and a
raised ConfigError propagates out of load_config, so its error decides
load_config's outcome whenever a required top-level section is missing.
The source never reads a delivery_mode key. -/
def load_config_top_level (rawKeys : List String) : Except String Unit :=
  REQUIRED_TOP_LEVEL.foldlM (fun _ key => required_key rawKeys key "config") ()

/-! ## Cycle orchestration (monitor.py lines 33-80) -/

/-- Outcome of _process_object for one candidate in a non-dry-run cycle:
a failure raised before the webhook send (download, extraction, upload),
a webhook send answered with a non-2xx status (raise_for_status raises),
or a webhook send answered with 2xx. -/
inductive ProcOutcome where
  | earlyFailure
  | webhookFailure
  | delivered
deriving Repr, DecidableEq

/-- Observable events of one run_once cycle, in order. -/
inductive CycleEvent where
  | skip (object_id : String)
  | webhook (object_id : String) (ok : Bool)
  | record_insert (object_id : String)
  | snapshot_saved
deriving Repr, DecidableEq

/-- Result of the candidate loop of run_once: the event trace so far, the
object_ids in the in-memory state, each save_state call's key list, and
whether an exception was raised (ending the loop early). -/
structure LoopResult where
  events : List CycleEvent
  finalProcessed : List String
  savedStates : List (List String)
  raised : Bool
deriving Repr, DecidableEq

/-- Result of one run_once cycle: as LoopResult, plus whether the new
snapshot was persisted after the loop. -/
structure CycleResult where
  events : List CycleEvent
  finalProcessed : List String
  savedStates : List (List String)
  snapshotSaved : Bool
  raised : Bool
deriving Repr, DecidableEq

/-- The candidate loop of run_once (monitor.py lines 68-75) with dry_run
false: already-processed ids are skipped without any webhook send,
otherwise _process_object runs; on 2xx the record is inserted into the
state, which is saved immediately; on a raise the exception propagates,
so no later candidate is touched. -/
def processLoop (outcome : String → ProcOutcome) (processed : List String) :
    List String → LoopResult
  | [] => ⟨[], processed, [], false⟩
  | id :: rest =>
      if processed.contains id then
        let r := processLoop outcome processed rest
        { r with events := .skip id :: r.events }
      else
        match outcome id with
        | .earlyFailure => ⟨[], processed, [], true⟩
        | .webhookFailure => ⟨[.webhook id false], processed, [], true⟩
        | .delivered =>
            let r := processLoop outcome (processed ++ [id]) rest
            { r with
                events := .webhook id true :: .record_insert id :: r.events,
                savedStates := (processed ++ [id]) :: r.savedStates }

/-- Shallow embedding of MonitorService.run_once (monitor.py lines 48-80)
with dry_run false, abstracted over the per-object downstream outcomes:
processed₀ lists the object_ids of the loaded MonitorState and candidates
the sorted new candidate object_ids.  The new snapshot is saved only when
the loop finishes without raising (monitor.py lines 77-78). -/
def run_once (outcome : String → ProcOutcome) (processed₀ candidates : List String) :
    CycleResult :=
  let r := processLoop outcome processed₀ candidates
  if r.raised then ⟨r.events, r.finalProcessed, r.savedStates, false, true⟩
  else ⟨r.events ++ [.snapshot_saved], r.finalProcessed, r.savedStates, true, false⟩

/-- One iteration of MonitorService.run_forever (monitor.py lines 41-46):
run_once's exception is caught and logged, so it never escapes the loop. -/
def run_forever_cycle (outcome : String → ProcOutcome) (processed₀ candidates : List String) :
    CycleResult :=
  let r := run_once outcome processed₀ candidates
  { r with raised := false }

/-! ## Release-notes extraction (release_notes.py lines 27-87) -/

/-- Python str.splitlines for newline-terminated text: split on the line
feed and drop a final empty piece. -/
def splitlines (s : String) : List String :=
  let parts := (splitChars '\n' s.data).map String.mk
  match parts.getLast? with
  | some "" => parts.dropLast
  | _ => parts

/-- Python str.strip(): drop leading and trailing whitespace. -/
def pyStrip (s : String) : String :=
  String.mk (((s.data.dropWhile isPySpace).reverse.dropWhile isPySpace).reverse)

/-- Anchored match of _VERSION_HEADING_PATTERN (release_notes.py lines
8-10) against one line: up to three leading whitespace characters, one to
six hash marks, optional whitespace, an optional v, the version core, then
only whitespace to the end of the line.  Returns the version group. -/
def matchHeading (line : String) : Option String :=
  let cs := line.data
  let lead := cs.takeWhile isPySpace
  if 3 < lead.length then none
  else
    let afterLead := cs.drop lead.length
    let hashes := afterLead.takeWhile (fun c => c = '#')
    if hashes.length = 0 ∨ 6 < hashes.length then none
    else
      let afterHash := afterLead.drop hashes.length
      let ws := afterHash.takeWhile isPySpace
      let afterWs := afterHash.drop ws.length
      let core := match afterWs with
        | 'v' :: rest => (matchNumCore rest).map (fun len => (rest.take len, rest.drop len))
        | rest => (matchNumCore rest).map (fun len => (rest.take len, rest.drop len))
      match core with
      | none => none
      | some (version, restEnd) =>
          if restEnd.all (fun c => isPySpace c) then some (String.mk version) else none

/-- Indexed version headings of the split lines, as the headings list of
extract_release_notes_section_for_tag. -/
def headingsOf (lines : List String) : List (Nat × String) :=
  lines.enum.filterMap (fun p => (matchHeading p.2).map (fun v => (p.1, v)))

/-- Shallow embedding of _normalize_tag (release_notes.py lines 120-121):
strip, lowercase, strip all leading v characters. -/
def normalize_tag (tag : String) : String :=
  String.mk ((toLowerStr (pyStrip tag)).data.dropWhile (fun c => c = 'v'))

/-- The heading loop of extract_release_notes_section_for_tag
(release_notes.py lines 77-87): find the first heading whose normalized
version equals the target, and slice from it up to the next heading. -/
def sectionSearch (lines : List String) (target : String) :
    List (Nat × String) → Option (Option String)
  | [] => none
  | (start, version) :: rest =>
      if normalize_tag version = target then
        let endIdx := match rest with | (nxt, _) :: _ => nxt | [] => lines.length
        let sect := pyStrip (String.intercalate "\n" ((lines.drop start).take (endIdx - start)))
        some (if sect = "" then none else some (truncate_notes sect))
      else sectionSearch lines target rest

/-- Shallow embedding of extract_release_notes_section_for_tag
(release_notes.py lines 61-87): the optional section text and whether the
candidate contains any version headings. -/
def extract_release_notes_section_for_tag (notes_text release_tag : String) :
    Option String × Bool :=
  let lines := splitlines notes_text
  let headings := headingsOf lines
  if headings = [] then
    let text := pyStrip notes_text
    if text = "" then (none, false) else (some (truncate_notes text), false)
  else
    match sectionSearch lines (normalize_tag release_tag) headings with
    | some r => (r, true)
    | none => (none, true)

/-- Shallow embedding of types in release_notes.py. -/
structure ExtractedReleaseNotes where
  text : String
  source_member : String
deriving Repr, DecidableEq

/-- The candidate loop of extract_release_notes_for_tag_from_archive
(release_notes.py lines 40-56), over the filtered and priority-sorted note
members paired with their decoded texts (an empty text models a member
_read_text_member rejects, which the loop skips). -/
def notesLoop (release_tag : String) (fallback_text fallback_source : Option String) :
    List (String × String) → Option ExtractedReleaseNotes
  | [] =>
      match fallback_text, fallback_source with
      | some ft, some fs => if ft ≠ "" ∧ fs ≠ "" then some ⟨ft, fs⟩ else none
      | _, _ => none
  | (member, text) :: rest =>
      if text = "" then notesLoop release_tag fallback_text fallback_source rest
      else
        let res := extract_release_notes_section_for_tag text release_tag
        match res.1 with
        | some sect => some ⟨sect, member⟩
        | none =>
            if ¬ res.2 ∧ fallback_text = none then
              notesLoop release_tag (some (truncate_notes text)) (some member) rest
            else
              notesLoop release_tag fallback_text fallback_source rest

/-- Extraction over the prepared note candidates, from an empty fallback
slot. -/
def extract_release_notes_from_candidates (candidates : List (String × String))
    (release_tag : String) : Option ExtractedReleaseNotes :=
  notesLoop release_tag none none candidates

/-! ## Concrete values used in witnesses and counterexamples -/

/-- A 40001-character text, one character over the truncation bound. -/
def longText : String := String.mk (List.replicate 40001 'a')

/-- The object of the remote-path regression tests: a versioned archive. -/
def exObj : ObjectMetadata :=
  ⟨"bucket", "v2.0.16/megaeth-rpc-v2.0.16.tar.gz", 100, some "application/x-tar", "123",
   some "1", some "abc", some "def", some "etag", "2026-02-16T00:00:00+00:00",
   some "2026-02-16T00:00:00+00:00"⟩

/-- A processing record whose uploads list is empty. -/
def emptyUploadsRecord : ProcessingRecord := ⟨"t1", "p", "u", none, "t2", []⟩

/-- A downstream outcome assignment used to exercise the cycle model. -/
def exOutcome : String → ProcOutcome :=
  fun id => if id = "b#1" then .webhookFailure else .delivered

/-- A small current snapshot with one archive file and one directory
marker. -/
def snapCur : Snapshot :=
  ⟨"bucket", "t1",
   [("a/v1.2.0/x.tar.gz#11",
     ⟨"bucket", "a/v1.2.0/x.tar.gz", 5, some "application/gzip", "11", none, none, none, none,
      "2026-01-02T00:00:00Z", none⟩),
    ("a/old.tar.gz#7",
     ⟨"bucket", "a/old.tar.gz", 5, some "application/gzip", "7", none, none, none, none,
      "2026-01-01T00:00:00Z", none⟩),
    ("a/dir/#9",
     ⟨"bucket", "a/dir/", 0, none, "9", none, none, none, none,
      "2026-01-03T00:00:00Z", none⟩)]⟩

/-- A previous snapshot containing one of the current objects. -/
def snapPrev : Snapshot :=
  ⟨"bucket", "t0",
   [("a/old.tar.gz#7",
     ⟨"bucket", "a/old.tar.gz", 5, some "application/gzip", "7", none, none, none, none,
      "2026-01-01T00:00:00Z", none⟩)]⟩

example :
    bytesToHex (sha256Bytes (utf8Encode "abc")) =
      "ba7816bf8f01cfea414140de5dae2223b00361a396177a9cb410ff61f20015ad" := by
  decide

example : extract_release_tag "v2.0.16/megaeth-rpc-v2.0.16.tar.gz" "123" = "v2.0.16" := by decide
example : extract_release_tag "releases/latest/build.tar.gz" "177123" = "gcs-177123" := by decide
example : extract_release_tag "a/v1.2.3.4.5/x.tgz" "9" = "v1.2.3.4" := by decide
example : extract_release_tag "v9/x.tar.gz" "1" = "gcs-1" := by decide
example : extract_release_tag "foo-v1.2-rc.1.zip" "2" = "v1.2-rc.1.zip" := by decide
example : extract_release_tag "v1.2.3.4.5-x/file-v2.3.zip" "3" = "v2.3" := by decide

example : matchHeading "# v2.0.15" = some "2.0.15" := by decide
example : matchHeading "## 1.2.3-rc.1  " = some "1.2.3-rc.1" := by decide
example : matchHeading "#### v1.2.3.4.5" = none := by decide
example : matchHeading "    # v1.2" = none := by decide
example : matchHeading "   ###### v10.20.30-a.b-c " = some "10.20.30-a.b-c" := by decide
example : matchHeading "# v1.2." = none := by decide
example : matchHeading "####### v1.2" = none := by decide
example : matchHeading "#v3.4" = some "3.4" := by decide
example : matchHeading "# vv1.2" = none := by decide
example : matchHeading "\t# v1.2" = some "1.2" := by decide

example : splitlines "a\nb\n" = ["a", "b"] := by decide
example : splitlines "" = [] := by decide
example : splitlines "\n" = [""] := by decide

example :
    extract_release_notes_section_for_tag
        "# v2.0.15\n\nUse this one.\n\n# v2.0.14\n\nDo not include this.\n" "v2.0.15" =
      (some "# v2.0.15\n\nUse this one.", true) := by decide

example :
    extract_release_notes_section_for_tag
        "# v2.0.15\n\nCurrent release details.\n\n# v2.0.14\n\nOld release details." "v2.0.16" =
      (none, true) := by decide

example :
    dumpsVal (.obj (listToObj [("b", .str "x"), ("a", .num 1)])) =
      "\x7b\"a\":1,\"b\":\"x\"\x7d" := by
  decide

example :
    (build_signed_payload (.obj (listToObj [("a", .num 1), ("b", .str "x")]))
        "s3cr3t" 1700000000).signature =
      "sha256=9072467d5ceb5bc0d98398aa6d471a054a25d75b0f65cf3583ed9f06038ec509" := by
  decide


/-! ## Order lemmas for the Python string comparison -/

theorem ltChars_asymm : ∀ {a b : List Char}, ltChars a b = true → ltChars b a = false := by
  intro a
  induction a with
  | nil =>
      intro b h
      cases b with
      | nil => simp [ltChars] at h
      | cons d ds => simp [ltChars]
  | cons c cs ih =>
      intro b h
      cases b with
      | nil => simp [ltChars] at h
      | cons d ds =>
          simp only [ltChars] at h ⊢
          rcases Nat.lt_trichotomy c.toNat d.toNat with h1 | h1 | h1
          · rw [if_neg (by omega), if_pos h1]
          · rw [if_neg (by omega), if_neg (by omega)] at h
            rw [if_neg (by omega), if_neg (by omega)]
            exact ih h
          · rw [if_neg (by omega), if_pos h1] at h
            exact absurd h (by simp)

theorem ltChars_trans : ∀ {a b c : List Char},
    ltChars a b = true → ltChars b c = true → ltChars a c = true := by
  intro a
  induction a with
  | nil =>
      intro b c hab hbc
      cases c with
      | nil =>
          cases b with
          | nil => simp [ltChars] at hab
          | cons y ys => simp [ltChars] at hbc
      | cons z zs => simp [ltChars]
  | cons x xs ih =>
      intro b c hab hbc
      cases b with
      | nil => simp [ltChars] at hab
      | cons y ys =>
          cases c with
          | nil => simp [ltChars] at hbc
          | cons z zs =>
              simp only [ltChars] at hab hbc ⊢
              rcases Nat.lt_trichotomy x.toNat y.toNat with hxy | hxy | hxy <;>
                rcases Nat.lt_trichotomy y.toNat z.toNat with hyz | hyz | hyz
              · rw [if_pos (by omega)]
              · rw [if_pos (by omega)]
              · rw [if_neg (by omega), if_pos hyz] at hbc
                exact absurd hbc (by simp)
              · rw [if_pos (by omega)]
              · rw [if_neg (by omega), if_neg (by omega)] at hab
                rw [if_neg (by omega), if_neg (by omega)] at hbc
                rw [if_neg (by omega), if_neg (by omega)]
                exact ih hab hbc
              · rw [if_neg (by omega), if_pos hyz] at hbc
                exact absurd hbc (by simp)
              · rw [if_neg (by omega), if_pos hxy] at hab
                exact absurd hab (by simp)
              · rw [if_neg (by omega), if_pos hxy] at hab
                exact absurd hab (by simp)
              · rw [if_neg (by omega), if_pos hxy] at hab
                exact absurd hab (by simp)

theorem ltChars_eq_of_not : ∀ {a b : List Char},
    ltChars a b = false → ltChars b a = false → a = b := by
  intro a
  induction a with
  | nil =>
      intro b h1 _
      cases b with
      | nil => rfl
      | cons d ds => simp [ltChars] at h1
  | cons x xs ih =>
      intro b h1 h2
      cases b with
      | nil => simp [ltChars] at h2
      | cons y ys =>
          simp only [ltChars] at h1 h2
          rcases Nat.lt_trichotomy x.toNat y.toNat with hxy | hxy | hxy
          · rw [if_pos hxy] at h1
            exact absurd h1 (by simp)
          · rw [if_neg (by omega), if_neg (by omega)] at h1
            rw [if_neg (by omega), if_neg (by omega)] at h2
            have hx : x = y := by
              have h3 : x.toNat = y.toNat := hxy
              exact Char.ext (UInt32.ext h3)
            rw [hx, ih h1 h2]
          · rw [if_pos hxy] at h2
            exact absurd h2 (by simp)

theorem pyStrLe_total (a b : String) : pyStrLe a b ∨ pyStrLe b a := by
  unfold pyStrLe pyStrLt
  by_cases h : ltChars a.data b.data = true
  · exact Or.inl (ltChars_asymm h)
  · exact Or.inr (Bool.eq_false_iff.mpr h)

theorem pyStrLe_trans {a b c : String} (h1 : pyStrLe a b) (h2 : pyStrLe b c) : pyStrLe a c := by
  unfold pyStrLe pyStrLt at h1 h2 ⊢
  cases hca : ltChars c.data a.data with
  | false => rfl
  | true =>
      exfalso
      cases hbc : ltChars b.data c.data with
      | true =>
          have hba := ltChars_trans hbc hca
          rw [h1] at hba
          exact Bool.false_ne_true hba
      | false =>
          have hbc2 : b.data = c.data := ltChars_eq_of_not hbc h2
          rw [← hbc2] at hca
          rw [h1] at hca
          exact Bool.false_ne_true hca

/-- C7: release-notes texts longer than 40,000 characters are truncated to
exactly their first 40,000 characters followed by the truncation marker
line, and texts of at most 40,000 characters are returned unchanged. -/
theorem c7_truncate_notes (text : String) :
    (text.length ≤ 40000 → truncate_notes text = text) ∧
    (40000 < text.length →
      truncate_notes text =
        text.take 40000 ++
          "\n\n[release notes truncated for webhook payload size; full notes available in artifact]") := by
  constructor
  · intro h
    unfold truncate_notes MAX_NOTE_CHARS
    rw [if_pos h]
  · intro h
    unfold truncate_notes MAX_NOTE_CHARS
    rw [if_neg (by omega)]

theorem longText_len : longText.length = 40001 := by
  unfold longText
  rw [String.length_mk, List.length_replicate]

theorem c7_truncate_notes_witness :
    truncate_notes "abc" = "abc" ∧
    (40000 < longText.length ∧
      truncate_notes longText =
        longText.take 40000 ++
          "\n\n[release notes truncated for webhook payload size; full notes available in artifact]") := by
  refine ⟨(c7_truncate_notes "abc").1 (by decide), ?_,
    (c7_truncate_notes longText).2 (by rw [longText_len]; omega)⟩
  rw [longText_len]
  omega

/-- C8: extract_release_tag returns the first version-pattern match found
by searching the basename of the object name and then the parent path
segments right to left, and falls back to gcs- plus the generation when no
segment matches; in particular the object name releases/latest/build.tar.gz
with generation 177123 yields gcs-177123. -/
theorem c8_extract_release_tag :
    (∀ (object_name fallback_generation : String),
        extract_release_tag object_name fallback_generation =
          ((pathBasename object_name :: (pathParts object_name).dropLast.reverse).findSome?
              searchVersion).getD ("gcs-" ++ fallback_generation)) ∧
    extract_release_tag "releases/latest/build.tar.gz" "177123" = "gcs-177123" ∧
    extract_release_tag "v2.0.16/megaeth-rpc-v2.0.16.tar.gz" "123" = "v2.0.16" := by
  refine ⟨fun name gen => ?_, by decide, by decide⟩
  unfold extract_release_tag
  rw [List.findSome?_cons]
  cases h : searchVersion (pathBasename name) with
  | some m => simp
  | none =>
      cases h2 : ((pathParts name).dropLast.reverse).findSome? searchVersion with
      | some m => simp [h2]
      | none => simp [h2]

/-- C5 counterexample: _build_remote_path applied to the final path
segment of its own output appends the generation suffix a second time, so
it is not idempotent as claimed: for the file genesis.json of the archive
object v2.0.16/megaeth-rpc-v2.0.16.tar.gz generation 123 the first path
ends in -g123 and the reapplication ends in -g123-g123. -/
theorem c5_counterexample :
    build_remote_path "EXTERNAL/FILESHARES/CLIENT_BINARIES" "megaeth" "genesis.json" exObj =
      "EXTERNAL/FILESHARES/CLIENT_BINARIES/megaeth/v2.0.16-genesis.json-g123" ∧
    build_remote_path "EXTERNAL/FILESHARES/CLIENT_BINARIES" "megaeth"
        (lastSegment (build_remote_path "EXTERNAL/FILESHARES/CLIENT_BINARIES" "megaeth"
          "genesis.json" exObj)) exObj =
      "EXTERNAL/FILESHARES/CLIENT_BINARIES/megaeth/v2.0.16-genesis.json-g123-g123" ∧
    build_remote_path "EXTERNAL/FILESHARES/CLIENT_BINARIES" "megaeth"
        (lastSegment (build_remote_path "EXTERNAL/FILESHARES/CLIENT_BINARIES" "megaeth"
          "genesis.json" exObj)) exObj ≠
      build_remote_path "EXTERNAL/FILESHARES/CLIENT_BINARIES" "megaeth" "genesis.json" exObj := by
  refine ⟨by decide, by decide, by decide⟩

theorem strStartsWith_append (p f : String) : strStartsWith (p ++ f) p = true := by
  unfold strStartsWith
  rw [String.data_append]
  exact List.isPrefixOf_iff_prefix.mpr (List.prefix_append _ _)

theorem intercalate_three (s a b c : String) :
    String.intercalate s [a, b, c] = a ++ s ++ b ++ s ++ c := rfl

/-- C5 amended: the release-tag prefixing step of _build_remote_path is
idempotent - the versioned filename already starts with the tag prefix, so
feeding it back yields the same path and the tag prefix is never doubled -
but the full remote path is not a fixed point of the function, because the
-g generation suffix is appended on every application; the path always has
the form remote_dir/organization/versioned_filename-g generation. -/
theorem c5_amended (remote_root organization filename : String) (obj : ObjectMetadata) :
    (strStartsWith
        (if strStartsWith filename (extract_release_tag obj.name obj.generation ++ "-") then
          filename
        else extract_release_tag obj.name obj.generation ++ "-" ++ filename)
        (extract_release_tag obj.name obj.generation ++ "-") = true) ∧
    build_remote_path remote_root organization
        (if strStartsWith filename (extract_release_tag obj.name obj.generation ++ "-") then
          filename
        else extract_release_tag obj.name obj.generation ++ "-" ++ filename) obj =
      build_remote_path remote_root organization filename obj ∧
    build_remote_path remote_root organization filename obj =
      remote_root ++ "/" ++ organization ++ "/" ++
        (if strStartsWith filename (extract_release_tag obj.name obj.generation ++ "-") then
          filename
        else extract_release_tag obj.name obj.generation ++ "-" ++ filename) ++
        "-g" ++ obj.generation := by
  by_cases h : strStartsWith filename (extract_release_tag obj.name obj.generation ++ "-") = true
  · refine ⟨by rw [if_pos h]; exact h, by rw [if_pos h], ?_⟩
    simp only [build_remote_path]
    rw [if_pos h, intercalate_three]
    simp [String.append_assoc]
  · refine ⟨?_, ?_, ?_⟩
    · rw [if_neg h]
      exact strStartsWith_append _ _
    · simp only [build_remote_path]
      rw [if_neg h, if_pos (strStartsWith_append _ _)]
    · simp only [build_remote_path]
      rw [if_neg h, intercalate_three]
      simp [String.append_assoc]

/-- C3: the source's load_config rejects every configuration without a
nextcloud section, regardless of delivery_mode: the _REQUIRED_TOP_LEVEL
loop raises ConfigError before any section is parsed, and config.py never
reads a delivery_mode key.  This contradicts the claim (and the repo's own
tests): a webhook_only configuration without nextcloud is refused. -/
theorem c3_load_config_missing_nextcloud :
    (∀ rawKeys : List String,
        "gcs" ∈ rawKeys → "nextcloud" ∉ rawKeys →
        load_config_top_level rawKeys =
          Except.error "Missing required key nextcloud in config") ∧
    load_config_top_level ["delivery_mode", "poll_interval_seconds", "gcs", "webhook", "chain"] =
      Except.error "Missing required key nextcloud in config" := by
  constructor
  · intro ks h1 h2
    simp [load_config_top_level, REQUIRED_TOP_LEVEL, required_key, List.foldlM, h1, h2, Bind.bind, Except.bind]
  · rfl

theorem c3_load_config_missing_nextcloud_witness :
    ("gcs" ∈ ["delivery_mode", "gcs", "webhook", "chain"]) ∧
    ("nextcloud" ∉ ["delivery_mode", "gcs", "webhook", "chain"]) ∧
    load_config_top_level ["delivery_mode", "gcs", "webhook", "chain"] =
      Except.error "Missing required key nextcloud in config" :=
  ⟨by decide, by decide,
    c3_load_config_missing_nextcloud.1 ["delivery_mode", "gcs", "webhook", "chain"]
      (by decide) (by decide)⟩

theorem record_from_dict_id (r : ProcessingRecord)
    (h1 : r.uploads ≠ []) (h2 : r.share_url ≠ some "") :
    record_from_dict r = r := by
  obtain ⟨pa, np, nu, su, wd, up⟩ := r
  simp only at h1 h2
  cases su with
  | none => simp [record_from_dict, h1]
  | some s =>
      have hs : s ≠ "" := by
        intro he
        exact h2 (by rw [he])
      simp [record_from_dict, h1, hs]

/-- C9 counterexample: a MonitorState whose record has an empty uploads
list does not survive the save-then-load round trip, because from_dict
synthesizes an archive upload entry for it. -/
theorem c9_counterexample :
    save_then_load [("obj#1", emptyUploadsRecord)] ≠ [("obj#1", emptyUploadsRecord)] := by
  decide

/-- C9 amended: saving a MonitorState with StateStore.save_state and
loading it back returns an equal MonitorState, provided every record has a
nonempty uploads list and no empty-string share_url (the two spots where
from_dict normalizes rather than restores). -/
theorem c9_amended : ∀ (state : MonitorState),
    (∀ p ∈ state, p.2.uploads ≠ [] ∧ p.2.share_url ≠ some "") →
    save_then_load state = state := by
  intro state
  induction state with
  | nil => intro _; rfl
  | cons hd tl ih =>
      intro h
      unfold save_then_load
      simp only [List.map_cons]
      have h1 := h hd (List.mem_cons_self _ _)
      rw [record_from_dict_id hd.2 h1.1 h1.2]
      have ih2 := ih (fun p hp => h p (List.mem_cons_of_mem _ hp))
      unfold save_then_load at ih2
      rw [ih2]

theorem c9_amended_witness :
    (∀ p ∈ ([("a#1", ⟨"t1", "p", "u", some "s", "t2",
          [[("artifact_type", some "archive")]]⟩)] : MonitorState),
        p.2.uploads ≠ [] ∧ p.2.share_url ≠ some "") ∧
    save_then_load [("a#1", ⟨"t1", "p", "u", some "s", "t2",
        [[("artifact_type", some "archive")]]⟩)] =
      [("a#1", ⟨"t1", "p", "u", some "s", "t2", [[("artifact_type", some "archive")]]⟩)] :=
  ⟨by decide, c9_amended _ (by decide)⟩

theorem contains_iff_mem (l : List String) (a : String) : l.contains a = true ↔ a ∈ l :=
  List.elem_iff

theorem is_candidate_archive_iff (obj : ObjectMetadata) (suffixes content_types : List String) :
    is_candidate_archive obj suffixes content_types = true ↔
      obj.is_file = true ∧
        (contentTypeHit obj content_types = true ∨ suffixHit obj suffixes = true) := by
  unfold is_candidate_archive
  cases hf : obj.is_file with
  | false => simp [hf]
  | true => cases h1 : contentTypeHit obj content_types <;> simp [hf, h1]

/-- C6: the candidate list of a cycle contains exactly the objects of the
current snapshot whose object_id is absent from the previous snapshot,
which are regular files (positive size, no trailing slash) and whose
content type is configured or whose name ends with a configured suffix;
and the list is sorted by the updated timestamp in ascending order. -/
theorem c6_new_candidate_objects (previous : Option Snapshot) (current : Snapshot)
    (suffixes content_types : List String)
    (hkeys : ∀ p ∈ current.objects, p.1 = p.2.object_id) :
    (∀ obj : ObjectMetadata,
        obj ∈ new_candidate_objects previous current suffixes content_types ↔
          ((obj.object_id, obj) ∈ current.objects ∧
            obj.object_id ∉ previousIds previous ∧
            obj.is_file = true ∧
            (contentTypeHit obj content_types = true ∨ suffixHit obj suffixes = true))) ∧
    (new_candidate_objects previous current suffixes content_types).Sorted updatedLe := by
  constructor
  · intro obj
    unfold new_candidate_objects
    rw [(List.perm_insertionSort updatedLe _).mem_iff]
    rw [List.mem_filter]
    constructor
    · rintro ⟨hmem, hcand⟩
      rw [List.mem_map] at hmem
      obtain ⟨p, hp, rfl⟩ := hmem
      rw [List.mem_filter] at hp
      obtain ⟨hpo, hprev⟩ := hp
      have hk := hkeys p hpo
      refine ⟨?_, ?_, (is_candidate_archive_iff _ _ _).mp hcand⟩
      · rw [← hk, Prod.mk.eta]
        exact hpo
      · rw [← hk]
        intro hin
        rw [← contains_iff_mem] at hin
        rw [hin] at hprev
        exact Bool.false_ne_true hprev
    · rintro ⟨hmem, hprev, hfile, hhit⟩
      refine ⟨?_, (is_candidate_archive_iff _ _ _).mpr ⟨hfile, hhit⟩⟩
      rw [List.mem_map]
      refine ⟨(obj.object_id, obj), ?_, rfl⟩
      rw [List.mem_filter]
      refine ⟨hmem, ?_⟩
      cases hc : (previousIds previous).contains obj.object_id with
      | false => rfl
      | true => exact absurd ((contains_iff_mem _ _).mp hc) hprev
  · haveI : IsTotal ObjectMetadata updatedLe := ⟨fun a b => pyStrLe_total a.updated b.updated⟩
    haveI : IsTrans ObjectMetadata updatedLe :=
      ⟨fun _ _ _ h1 h2 => pyStrLe_trans h1 h2⟩
    unfold new_candidate_objects
    exact List.sorted_insertionSort updatedLe _

theorem c6_new_candidate_objects_witness :
    (∀ p ∈ snapCur.objects, p.1 = p.2.object_id) ∧
    (new_candidate_objects (some snapPrev) snapCur [".tar.gz"]
        ["application/gzip"]).Sorted updatedLe ∧
    (((⟨"bucket", "a/v1.2.0/x.tar.gz", 5, some "application/gzip", "11", none, none, none,
          none, "2026-01-02T00:00:00Z", none⟩ : ObjectMetadata) ∈
        new_candidate_objects (some snapPrev) snapCur [".tar.gz"] ["application/gzip"]) ↔
      (((⟨"bucket", "a/v1.2.0/x.tar.gz", 5, some "application/gzip", "11", none, none, none,
            none, "2026-01-02T00:00:00Z", none⟩ : ObjectMetadata).object_id,
         (⟨"bucket", "a/v1.2.0/x.tar.gz", 5, some "application/gzip", "11", none, none, none,
            none, "2026-01-02T00:00:00Z", none⟩ : ObjectMetadata)) ∈ snapCur.objects ∧
        (⟨"bucket", "a/v1.2.0/x.tar.gz", 5, some "application/gzip", "11", none, none, none,
            none, "2026-01-02T00:00:00Z", none⟩ : ObjectMetadata).object_id ∉
          previousIds (some snapPrev) ∧
        (⟨"bucket", "a/v1.2.0/x.tar.gz", 5, some "application/gzip", "11", none, none, none,
            none, "2026-01-02T00:00:00Z", none⟩ : ObjectMetadata).is_file = true ∧
        (contentTypeHit
            (⟨"bucket", "a/v1.2.0/x.tar.gz", 5, some "application/gzip", "11", none, none, none,
              none, "2026-01-02T00:00:00Z", none⟩ : ObjectMetadata) ["application/gzip"] = true ∨
          suffixHit
            (⟨"bucket", "a/v1.2.0/x.tar.gz", 5, some "application/gzip", "11", none, none, none,
              none, "2026-01-02T00:00:00Z", none⟩ : ObjectMetadata) [".tar.gz"] = true))) :=
  ⟨by decide,
   (c6_new_candidate_objects (some snapPrev) snapCur [".tar.gz"] ["application/gzip"]
      (by decide)).2,
   (c6_new_candidate_objects (some snapPrev) snapCur [".tar.gz"] ["application/gzip"]
      (by decide)).1 _⟩

/-- C4 counterexample: with an earlier heading-less candidate and a later
candidate whose heading matches the tag, the extractor returns the earlier
candidate's truncated full text immediately instead of remembering it as a
fallback: release_notes.py line 48 returns any truthy section, and for a
heading-less nonempty candidate extract_release_notes_section_for_tag
returns its full text as the section.  The later candidate alone would
have produced the matching section. -/
theorem c4_counterexample :
    extract_release_notes_from_candidates
        [("a.txt", "no headings here"), ("b.md", "# v1.2\nfixed stuff")] "v1.2" =
      some ⟨"no headings here", "a.txt"⟩ ∧
    extract_release_notes_from_candidates
        [("a.txt", "no headings here"), ("b.md", "# v1.2\nfixed stuff")] "v1.2" ≠
      some ⟨"# v1.2\nfixed stuff", "b.md"⟩ ∧
    extract_release_notes_from_candidates [("b.md", "# v1.2\nfixed stuff")] "v1.2" =
      some ⟨"# v1.2\nfixed stuff", "b.md"⟩ := by
  refine ⟨by decide, by decide, by decide⟩

theorem truncate_notes_ne_empty (text : String) (h : text ≠ "") : truncate_notes text ≠ "" := by
  unfold truncate_notes MAX_NOTE_CHARS
  split_ifs with hle
  · exact h
  · intro he
    have hlen := congrArg String.length he
    rw [String.length_append] at hlen
    have hm : 0 <
        ("\n\n[release notes truncated for webhook payload size; full notes available in artifact]" : String).length := by
      decide
    have h0 : ("" : String).length = 0 := rfl
    omega

/-- C4 amended: a candidate containing no version headings and nonempty
stripped text short-circuits the candidate loop - its truncated stripped
full text is returned at once and later candidates are never consulted;
only a heading-less candidate whose text strips to empty is remembered in
the fallback slot, and that fallback is returned only after all candidates
have been tried. -/
theorem c4_amended :
    (∀ (member text : String) (rest : List (String × String)) (tag : String),
        pyStrip text ≠ "" → headingsOf (splitlines text) = [] →
        extract_release_notes_from_candidates ((member, text) :: rest) tag =
          some ⟨truncate_notes (pyStrip text), member⟩) ∧
    (∀ (member text tag : String),
        text ≠ "" → member ≠ "" → pyStrip text = "" →
        headingsOf (splitlines text) = [] →
        extract_release_notes_from_candidates [(member, text)] tag =
          some ⟨truncate_notes text, member⟩) := by
  constructor
  · intro member text rest tag hne hhd
    have htext : text ≠ "" := by
      intro he
      rw [he] at hne
      exact hne rfl
    have hsec : extract_release_notes_section_for_tag text tag =
        (some (truncate_notes (pyStrip text)), false) := by
      simp only [extract_release_notes_section_for_tag]
      rw [hhd]
      rw [if_pos rfl, if_neg hne]
    unfold extract_release_notes_from_candidates notesLoop
    rw [if_neg htext, hsec]
  · intro member text tag htext hmem hstrip hhd
    have hsec : extract_release_notes_section_for_tag text tag = (none, false) := by
      simp only [extract_release_notes_section_for_tag]
      rw [hhd]
      rw [if_pos rfl, hstrip, if_pos rfl]
    unfold extract_release_notes_from_candidates notesLoop
    rw [if_neg htext, hsec]
    have h1 : truncate_notes text ≠ "" := truncate_notes_ne_empty text htext
    simp [notesLoop, h1, hmem]

theorem c4_amended_witness :
    (pyStrip "no headings here" ≠ "" ∧
      headingsOf (splitlines "no headings here") = [] ∧
      extract_release_notes_from_candidates
          [("a.txt", "no headings here"), ("b.md", "# v1.2\nfixed stuff")] "v1.2" =
        some ⟨truncate_notes (pyStrip "no headings here"), "a.txt"⟩) ∧
    (("  " : String) ≠ "" ∧ ("w.txt" : String) ≠ "" ∧ pyStrip "  " = "" ∧
      headingsOf (splitlines "  ") = [] ∧
      extract_release_notes_from_candidates [("w.txt", "  ")] "v1" =
        some ⟨truncate_notes "  ", "w.txt"⟩) :=
  ⟨⟨by decide, by decide,
    c4_amended.1 "a.txt" "no headings here" [("b.md", "# v1.2\nfixed stuff")] "v1.2"
      (by decide) (by decide)⟩,
   ⟨by decide, by decide, by decide, by decide,
    c4_amended.2 "w.txt" "  " "v1" (by decide) (by decide) (by decide) (by decide)⟩⟩

/-! ## Trace lemmas for the cycle model -/

theorem processLoop_skip (outcome : String → ProcOutcome) (processed : List String)
    (c : String) (rest : List String) (hc : processed.contains c = true) :
    processLoop outcome processed (c :: rest) =
      ⟨CycleEvent.skip c :: (processLoop outcome processed rest).events,
       (processLoop outcome processed rest).finalProcessed,
       (processLoop outcome processed rest).savedStates,
       (processLoop outcome processed rest).raised⟩ := by
  simp only [processLoop]
  rw [if_pos hc]

theorem processLoop_early (outcome : String → ProcOutcome) (processed : List String)
    (c : String) (rest : List String) (hc : processed.contains c = false)
    (ho : outcome c = ProcOutcome.earlyFailure) :
    processLoop outcome processed (c :: rest) = ⟨[], processed, [], true⟩ := by
  simp only [processLoop]
  rw [if_neg (by rw [hc]; simp), ho]

theorem processLoop_webhookFail (outcome : String → ProcOutcome) (processed : List String)
    (c : String) (rest : List String) (hc : processed.contains c = false)
    (ho : outcome c = ProcOutcome.webhookFailure) :
    processLoop outcome processed (c :: rest) =
      ⟨[CycleEvent.webhook c false], processed, [], true⟩ := by
  simp only [processLoop]
  rw [if_neg (by rw [hc]; simp), ho]

theorem processLoop_delivered (outcome : String → ProcOutcome) (processed : List String)
    (c : String) (rest : List String) (hc : processed.contains c = false)
    (ho : outcome c = ProcOutcome.delivered) :
    processLoop outcome processed (c :: rest) =
      ⟨CycleEvent.webhook c true :: CycleEvent.record_insert c ::
          (processLoop outcome (processed ++ [c]) rest).events,
       (processLoop outcome (processed ++ [c]) rest).finalProcessed,
       (processed ++ [c]) :: (processLoop outcome (processed ++ [c]) rest).savedStates,
       (processLoop outcome (processed ++ [c]) rest).raised⟩ := by
  simp only [processLoop]
  rw [if_neg (by rw [hc]; simp), ho]

theorem processLoop_records (outcome : String → ProcOutcome) :
    ∀ (cands processed : List String) (i : Nat) (id : String),
      (processLoop outcome processed cands).events[i]? =
          some (CycleEvent.record_insert id) →
      ∃ j, j < i ∧ (processLoop outcome processed cands).events[j]? =
          some (CycleEvent.webhook id true) := by
  intro cands
  induction cands with
  | nil =>
      intro processed i id h
      simp [processLoop] at h
  | cons c rest ih =>
      intro processed i id h
      by_cases hc : processed.contains c = true
      · rw [processLoop_skip outcome processed c rest hc] at h ⊢
        simp only at h ⊢
        cases i with
        | zero => simp at h
        | succ i2 =>
            rw [List.getElem?_cons_succ] at h
            obtain ⟨j, hj, hjw⟩ := ih processed i2 id h
            exact ⟨j + 1, by omega, by rw [List.getElem?_cons_succ]; exact hjw⟩
      · have hc2 : processed.contains c = false := by
          cases hcc : processed.contains c with
          | false => rfl
          | true => exact absurd hcc hc
        cases ho : outcome c with
        | earlyFailure =>
            rw [processLoop_early outcome processed c rest hc2 ho] at h
            simp at h
        | webhookFailure =>
            rw [processLoop_webhookFail outcome processed c rest hc2 ho] at h
            simp only at h
            cases i with
            | zero => simp at h
            | succ i2 => rw [List.getElem?_cons_succ] at h; simp at h
        | delivered =>
            rw [processLoop_delivered outcome processed c rest hc2 ho] at h ⊢
            simp only at h ⊢
            cases i with
            | zero => simp at h
            | succ i2 =>
                rw [List.getElem?_cons_succ] at h
                cases i2 with
                | zero =>
                    rw [List.getElem?_cons_zero] at h
                    have hcid : c = id := by
                      have h2 := Option.some.inj h
                      cases h2
                      rfl
                    refine ⟨0, by omega, ?_⟩
                    rw [List.getElem?_cons_zero, hcid]
                | succ i3 =>
                    rw [List.getElem?_cons_succ] at h
                    obtain ⟨j, hj, hjw⟩ := ih (processed ++ [c]) i3 id h
                    refine ⟨j + 2, by omega, ?_⟩
                    rw [List.getElem?_cons_succ, List.getElem?_cons_succ]
                    exact hjw

theorem processLoop_no_webhook_for_processed (outcome : String → ProcOutcome) :
    ∀ (cands processed : List String) (id : String), id ∈ processed → ∀ ok,
      CycleEvent.webhook id ok ∉ (processLoop outcome processed cands).events := by
  intro cands
  induction cands with
  | nil =>
      intro processed id hmem ok
      simp [processLoop]
  | cons c rest ih =>
      intro processed id hmem ok
      by_cases hc : processed.contains c = true
      · rw [processLoop_skip outcome processed c rest hc]
        simp only [List.mem_cons]
        rintro (he | he)
        · exact CycleEvent.noConfusion he
        · exact ih processed id hmem ok he
      · have hc2 : processed.contains c = false := by
          cases hcc : processed.contains c with
          | false => rfl
          | true => exact absurd hcc hc
        have hne : id ≠ c := by
          intro he
          rw [he] at hmem
          have hcm := (contains_iff_mem processed c).mpr hmem
          rw [hc2] at hcm
          exact Bool.false_ne_true hcm
        cases ho : outcome c with
        | earlyFailure =>
            rw [processLoop_early outcome processed c rest hc2 ho]
            simp
        | webhookFailure =>
            rw [processLoop_webhookFail outcome processed c rest hc2 ho]
            simp only [List.mem_cons]
            rintro (he | he)
            · exact hne (CycleEvent.webhook.inj he).1
            · simp at he
        | delivered =>
            rw [processLoop_delivered outcome processed c rest hc2 ho]
            simp only [List.mem_cons]
            rintro (he | he)
            · exact hne (CycleEvent.webhook.inj he).1
            · rcases he with he | he
              · exact CycleEvent.noConfusion he
              · exact ih (processed ++ [c]) id (List.mem_append_left _ hmem) ok he

theorem processLoop_final (outcome : String → ProcOutcome) :
    ∀ (cands processed : List String) (id : String),
      id ∈ (processLoop outcome processed cands).finalProcessed →
      id ∈ processed ∨
        CycleEvent.webhook id true ∈ (processLoop outcome processed cands).events := by
  intro cands
  induction cands with
  | nil =>
      intro processed id hmem
      exact Or.inl hmem
  | cons c rest ih =>
      intro processed id hmem
      by_cases hc : processed.contains c = true
      · rw [processLoop_skip outcome processed c rest hc] at hmem ⊢
        simp only at hmem ⊢
        rcases ih processed id hmem with h | h
        · exact Or.inl h
        · exact Or.inr (List.mem_cons_of_mem _ h)
      · have hc2 : processed.contains c = false := by
          cases hcc : processed.contains c with
          | false => rfl
          | true => exact absurd hcc hc
        cases ho : outcome c with
        | earlyFailure =>
            rw [processLoop_early outcome processed c rest hc2 ho] at hmem
            exact Or.inl hmem
        | webhookFailure =>
            rw [processLoop_webhookFail outcome processed c rest hc2 ho] at hmem
            exact Or.inl hmem
        | delivered =>
            rw [processLoop_delivered outcome processed c rest hc2 ho] at hmem ⊢
            simp only at hmem ⊢
            rcases ih (processed ++ [c]) id hmem with h | h
            · rcases List.mem_append.mp h with h2 | h2
              · exact Or.inl h2
              · simp only [List.mem_singleton] at h2
                subst h2
                exact Or.inr (List.mem_cons_self _ _)
            · exact Or.inr (List.mem_cons_of_mem _ (List.mem_cons_of_mem _ h))

theorem run_once_events (outcome : String → ProcOutcome) (processed₀ candidates : List String) :
    (run_once outcome processed₀ candidates).events =
        (processLoop outcome processed₀ candidates).events ∨
    (run_once outcome processed₀ candidates).events =
        (processLoop outcome processed₀ candidates).events ++ [CycleEvent.snapshot_saved] := by
  unfold run_once
  by_cases hr : (processLoop outcome processed₀ candidates).raised = true
  · rw [if_pos hr]
    exact Or.inl rfl
  · rw [if_neg hr]
    exact Or.inr rfl

theorem run_once_finalProcessed (outcome : String → ProcOutcome)
    (processed₀ candidates : List String) :
    (run_once outcome processed₀ candidates).finalProcessed =
      (processLoop outcome processed₀ candidates).finalProcessed := by
  unfold run_once
  by_cases hr : (processLoop outcome processed₀ candidates).raised = true
  · rw [if_pos hr]
  · rw [if_neg hr]

/-- C2: in every non-dry-run run_once cycle, a record insertion for an
object_id occurs only after that object's webhook send returned success
(an earlier webhook-success event exists in the trace), no webhook is sent
for a candidate whose object_id is already in the loaded state (it is
skipped), and every object_id in the state after the cycle was either
already loaded or had its webhook delivered with 2xx in this cycle; hence
re-delivery is never automatic. -/
theorem c2_run_once (outcome : String → ProcOutcome) (processed₀ candidates : List String) :
    (∀ (i : Nat) (id : String), (run_once outcome processed₀ candidates).events[i]? =
        some (CycleEvent.record_insert id) →
      ∃ j : Nat, j < i ∧ (run_once outcome processed₀ candidates).events[j]? =
        some (CycleEvent.webhook id true)) ∧
    (∀ id, id ∈ processed₀ → ∀ ok,
      CycleEvent.webhook id ok ∉ (run_once outcome processed₀ candidates).events) ∧
    (∀ id, id ∈ (run_once outcome processed₀ candidates).finalProcessed →
      id ∈ processed₀ ∨
        CycleEvent.webhook id true ∈ (run_once outcome processed₀ candidates).events) := by
  rcases run_once_events outcome processed₀ candidates with hev | hev
  · refine ⟨?_, ?_, ?_⟩
    · intro i id h
      rw [hev] at h ⊢
      exact processLoop_records outcome candidates processed₀ i id h
    · intro id hmem ok
      rw [hev]
      exact processLoop_no_webhook_for_processed outcome candidates processed₀ id hmem ok
    · intro id hmem
      rw [run_once_finalProcessed] at hmem
      rw [hev]
      exact processLoop_final outcome candidates processed₀ id hmem
  · refine ⟨?_, ?_, ?_⟩
    · intro i id h
      rw [hev] at h ⊢
      have hi : i < (processLoop outcome processed₀ candidates).events.length := by
        by_contra hge
        push_neg at hge
        rcases eq_or_lt_of_le hge with he | hgt
        · rw [← he] at h
          rw [List.getElem?_append_right (le_refl _)] at h
          simp at h
        · rw [List.getElem?_append_right (by omega)] at h
          rw [List.getElem?_eq_none] at h
          · simp at h
          · simp
            omega
      rw [List.getElem?_append_left hi] at h
      obtain ⟨j, hj, hjw⟩ := processLoop_records outcome candidates processed₀ i id h
      refine ⟨j, hj, ?_⟩
      rw [List.getElem?_append_left (by omega)]
      exact hjw
    · intro id hmem ok
      rw [hev]
      intro hin
      rcases List.mem_append.mp hin with h | h
      · exact processLoop_no_webhook_for_processed outcome candidates processed₀ id hmem ok h
      · simp at h
    · intro id hmem
      rw [run_once_finalProcessed] at hmem
      rw [hev]
      rcases processLoop_final outcome candidates processed₀ id hmem with h | h
      · exact Or.inl h
      · exact Or.inr (List.mem_append_left _ h)

theorem c2_run_once_witness :
    ((run_once exOutcome ["old#1"] ["old#1", "a#1"]).events[2]? =
      some (CycleEvent.record_insert "a#1")) ∧
    (∃ j, j < 2 ∧ (run_once exOutcome ["old#1"] ["old#1", "a#1"]).events[j]? =
      some (CycleEvent.webhook "a#1" true)) ∧
    ("old#1" ∈ (["old#1"] : List String)) ∧
    (CycleEvent.webhook "old#1" true ∉ (run_once exOutcome ["old#1"] ["old#1", "a#1"]).events) ∧
    ("a#1" ∈ (run_once exOutcome ["old#1"] ["old#1", "a#1"]).finalProcessed) ∧
    ("a#1" ∈ (["old#1"] : List String) ∨
      CycleEvent.webhook "a#1" true ∈ (run_once exOutcome ["old#1"] ["old#1", "a#1"]).events) :=
  ⟨by decide,
   (c2_run_once exOutcome ["old#1"] ["old#1", "a#1"]).1 2 "a#1" (by decide),
   by decide,
   (c2_run_once exOutcome ["old#1"] ["old#1", "a#1"]).2.1 "old#1" (by decide) true,
   by decide,
   (c2_run_once exOutcome ["old#1"] ["old#1", "a#1"]).2.2 "a#1" (by decide)⟩

theorem c10_loop (outcome : String → ProcOutcome) :
    ∀ (pre processed : List String) (bad : String) (post : List String),
      (processLoop outcome processed pre).raised = false →
      (processLoop outcome processed pre).finalProcessed.contains bad = false →
      outcome bad ≠ ProcOutcome.delivered →
      processLoop outcome processed (pre ++ bad :: post) =
        ⟨(processLoop outcome processed pre).events ++
            (if outcome bad = ProcOutcome.webhookFailure then
              [CycleEvent.webhook bad false]
            else []),
         (processLoop outcome processed pre).finalProcessed,
         (processLoop outcome processed pre).savedStates,
         true⟩ := by
  intro pre
  induction pre with
  | nil =>
      intro processed bad post hr hcb hnd
      have hcb2 : processed.contains bad = false := by
        simpa [processLoop] using hcb
      simp only [List.nil_append]
      cases ho : outcome bad with
      | earlyFailure =>
          rw [processLoop_early outcome processed bad post hcb2 ho]
          simp [processLoop]
      | webhookFailure =>
          rw [processLoop_webhookFail outcome processed bad post hcb2 ho]
          simp [processLoop]
      | delivered => exact absurd ho hnd
  | cons c rest ih =>
      intro processed bad post hr hcb hnd
      by_cases hc : processed.contains c = true
      · rw [processLoop_skip outcome processed c rest hc] at hr hcb
        simp only at hr hcb
        rw [List.cons_append,
            processLoop_skip outcome processed c (rest ++ bad :: post) hc,
            processLoop_skip outcome processed c rest hc]
        simp only
        rw [ih processed bad post hr hcb hnd]
        simp
      · have hc2 : processed.contains c = false := by
          cases hcc : processed.contains c with
          | false => rfl
          | true => exact absurd hcc hc
        cases ho : outcome c with
        | earlyFailure =>
            rw [processLoop_early outcome processed c rest hc2 ho] at hr
            simp at hr
        | webhookFailure =>
            rw [processLoop_webhookFail outcome processed c rest hc2 ho] at hr
            simp at hr
        | delivered =>
            rw [processLoop_delivered outcome processed c rest hc2 ho] at hr hcb
            simp only at hr hcb
            rw [List.cons_append,
                processLoop_delivered outcome processed c (rest ++ bad :: post) hc2 ho,
                processLoop_delivered outcome processed c rest hc2 ho]
            simp only
            rw [ih (processed ++ [c]) bad post hr hcb hnd]
            simp

/-- C10: when processing of a candidate raises in a non-dry-run run_once
cycle (a failure before the webhook send, or a non-2xx webhook response),
the exception propagates out of run_once at once: the cycle's event trace
ends at the failing candidate (no later candidate is touched), the new
snapshot is not persisted, the state saves of earlier successfully
processed candidates in the cycle are retained, and only run_forever
catches the exception. -/
theorem c10_run_once (outcome : String → ProcOutcome)
    (processed₀ pre post : List String) (bad : String)
    (h1 : (processLoop outcome processed₀ pre).raised = false)
    (h2 : (processLoop outcome processed₀ pre).finalProcessed.contains bad = false)
    (h3 : outcome bad ≠ ProcOutcome.delivered) :
    (run_once outcome processed₀ (pre ++ bad :: post)).raised = true ∧
    (run_once outcome processed₀ (pre ++ bad :: post)).snapshotSaved = false ∧
    (run_once outcome processed₀ (pre ++ bad :: post)).events =
      (processLoop outcome processed₀ pre).events ++
        (if outcome bad = ProcOutcome.webhookFailure then
          [CycleEvent.webhook bad false]
        else []) ∧
    (run_once outcome processed₀ (pre ++ bad :: post)).savedStates =
      (processLoop outcome processed₀ pre).savedStates ∧
    (run_once outcome processed₀ (pre ++ bad :: post)).finalProcessed =
      (processLoop outcome processed₀ pre).finalProcessed ∧
    (run_forever_cycle outcome processed₀ (pre ++ bad :: post)).raised = false := by
  have hl := c10_loop outcome pre processed₀ bad post h1 h2 h3
  unfold run_forever_cycle run_once
  rw [hl]
  simp

theorem c10_run_once_witness :
    ((processLoop exOutcome [] ["a#1"]).raised = false) ∧
    ((processLoop exOutcome [] ["a#1"]).finalProcessed.contains "b#1" = false) ∧
    (exOutcome "b#1" ≠ ProcOutcome.delivered) ∧
    ((run_once exOutcome [] (["a#1"] ++ "b#1" :: ["c#1"])).raised = true ∧
      (run_once exOutcome [] (["a#1"] ++ "b#1" :: ["c#1"])).snapshotSaved = false ∧
      (run_once exOutcome [] (["a#1"] ++ "b#1" :: ["c#1"])).events =
        (processLoop exOutcome [] ["a#1"]).events ++
          (if exOutcome "b#1" = ProcOutcome.webhookFailure then
            [CycleEvent.webhook "b#1" false]
          else []) ∧
      (run_once exOutcome [] (["a#1"] ++ "b#1" :: ["c#1"])).savedStates =
        (processLoop exOutcome [] ["a#1"]).savedStates ∧
      (run_once exOutcome [] (["a#1"] ++ "b#1" :: ["c#1"])).finalProcessed =
        (processLoop exOutcome [] ["a#1"]).finalProcessed ∧
      (run_forever_cycle exOutcome [] (["a#1"] ++ "b#1" :: ["c#1"])).raised = false) :=
  ⟨by decide, by decide, by decide,
   c10_run_once exOutcome [] ["a#1"] ["c#1"] "b#1" (by decide) (by decide) (by decide)⟩

/-! ## Canonical-JSON ordering lemmas for the signer -/

theorem dumpsObj_listToObj (kvs : List (String × JsonValue)) :
    dumpsObj (listToObj kvs) = kvs.map (fun kv => (kv.1, dumpsVal kv.2)) := by
  induction kvs with
  | nil => rfl
  | cons hd tl ih =>
      obtain ⟨k, v⟩ := hd
      simp only [listToObj, dumpsObj, List.map_cons, ih]

theorem keyLt_of_keyLe_ne {a b : String × String} (h1 : keyLe a b) (h2 : a.1 ≠ b.1) :
    keyLt a b := by
  unfold keyLe pyStrLe pyStrLt at h1
  unfold keyLt pyStrLt
  cases hab : ltChars a.1.data b.1.data with
  | true => rfl
  | false =>
      exfalso
      have hd : a.1.data = b.1.data := ltChars_eq_of_not hab h1
      exact h2 (congrArg String.mk hd)

theorem sorted_keyLt_of_sorted_keyLe {l : List (String × String)}
    (hs : l.Sorted keyLe) (hnd : (l.map Prod.fst).Nodup) : l.Sorted keyLt := by
  have hne : l.Pairwise (fun a b : String × String => a.1 ≠ b.1) :=
    List.pairwise_map.mp hnd
  exact (hs.and hne).imp (fun h => keyLt_of_keyLe_ne h.1 h.2)

theorem insertionSort_keyLe_perm_eq {l₁ l₂ : List (String × String)}
    (hp : l₁.Perm l₂) (hnd : (l₁.map Prod.fst).Nodup) :
    l₁.insertionSort keyLe = l₂.insertionSort keyLe := by
  haveI : IsTotal (String × String) keyLe := ⟨fun a b => pyStrLe_total a.1 b.1⟩
  haveI : IsTrans (String × String) keyLe := ⟨fun _ _ _ h1 h2 => pyStrLe_trans h1 h2⟩
  haveI : IsAntisymm (String × String) keyLt :=
    ⟨fun a b h1 h2 => by
      have h4 : ltChars b.1.data a.1.data = true := h2
      have h3 : ltChars b.1.data a.1.data = false := ltChars_asymm h1
      rw [h4] at h3
      simp at h3⟩
  have hperm : (l₁.insertionSort keyLe).Perm (l₂.insertionSort keyLe) :=
    (List.perm_insertionSort keyLe l₁).trans (hp.trans (List.perm_insertionSort keyLe l₂).symm)
  have hnd₁ : ((l₁.insertionSort keyLe).map Prod.fst).Nodup :=
    (((List.perm_insertionSort keyLe l₁).map Prod.fst).nodup_iff).mpr hnd
  have hnd₂ : ((l₂.insertionSort keyLe).map Prod.fst).Nodup :=
    (((List.perm_insertionSort keyLe l₂).map Prod.fst).nodup_iff).mpr
      (((hp.map Prod.fst).nodup_iff).mp hnd)
  exact List.eq_of_perm_of_sorted hperm
    (sorted_keyLt_of_sorted_keyLe (List.sorted_insertionSort keyLe l₁) hnd₁)
    (sorted_keyLt_of_sorted_keyLe (List.sorted_insertionSort keyLe l₂) hnd₂)

/-- C1: build_signed_payload returns the canonical JSON body (sorted keys,
compact separators, UTF-8), the signature sha256= followed by the
lowercase hex HMAC-SHA256 of str(ts) then a dot then the body keyed by the
secret, and the timestamp str(ts); the body bytes are identical for any
two payload maps that are permutations of each other with distinct keys;
and on the payload with a=1 and b="x", secret s3cr3t, timestamp
1700000000 the signature is the documented sha256 constant. -/
theorem c1_build_signed_payload :
    (∀ (payload : JsonValue) (secret : String) (ts : Int),
        build_signed_payload payload secret ts =
          ⟨toString ts,
           "sha256=" ++ bytesToHex (hmacSha256 (utf8Encode secret)
              (utf8Encode (toString ts ++ ".") ++ utf8Encode (dumpsVal payload))),
           utf8Encode (dumpsVal payload)⟩) ∧
    (∀ (kvs₁ kvs₂ : List (String × JsonValue)) (secret : String) (ts : Int),
        kvs₁.Perm kvs₂ → (kvs₁.map Prod.fst).Nodup →
        (build_signed_payload (.obj (listToObj kvs₁)) secret ts).body =
          (build_signed_payload (.obj (listToObj kvs₂)) secret ts).body) ∧
    build_signed_payload (.obj (listToObj [("a", .num 1), ("b", .str "x")])) "s3cr3t"
        1700000000 =
      ⟨"1700000000",
       "sha256=9072467d5ceb5bc0d98398aa6d471a054a25d75b0f65cf3583ed9f06038ec509",
       utf8Encode "\x7b\"a\":1,\"b\":\"x\"\x7d"⟩ := by
  refine ⟨fun payload secret ts => rfl, ?_, by decide⟩
  intro kvs₁ kvs₂ secret ts hp hnd
  have hsort : (dumpsObj (listToObj kvs₁)).insertionSort keyLe =
      (dumpsObj (listToObj kvs₂)).insertionSort keyLe := by
    apply insertionSort_keyLe_perm_eq
    · rw [dumpsObj_listToObj, dumpsObj_listToObj]
      exact hp.map _
    · rw [dumpsObj_listToObj]
      have hmm : ((kvs₁.map (fun kv => (kv.1, dumpsVal kv.2))).map Prod.fst) =
          kvs₁.map Prod.fst := by
        rw [List.map_map]
        rfl
      rw [hmm]
      exact hnd
  show utf8Encode (dumpsVal (.obj (listToObj kvs₁))) =
    utf8Encode (dumpsVal (.obj (listToObj kvs₂)))
  simp only [dumpsVal]
  rw [hsort]

theorem c1_build_signed_payload_witness :
    ([("b", JsonValue.str "x"), ("a", JsonValue.num 1)].Perm
        [("a", JsonValue.num 1), ("b", JsonValue.str "x")]) ∧
    (([("b", JsonValue.str "x"), ("a", JsonValue.num 1)].map Prod.fst).Nodup) ∧
    ((build_signed_payload
        (.obj (listToObj [("b", JsonValue.str "x"), ("a", JsonValue.num 1)]))
        "s3cr3t" 1700000000).body =
      (build_signed_payload
        (.obj (listToObj [("a", JsonValue.num 1), ("b", JsonValue.str "x")]))
        "s3cr3t" 1700000000).body) :=
  ⟨List.Perm.swap ("a", JsonValue.num 1) ("b", JsonValue.str "x") [],
   by decide,
   c1_build_signed_payload.2.1 _ _ "s3cr3t" 1700000000
     (List.Perm.swap ("a", JsonValue.num 1) ("b", JsonValue.str "x") []) (by decide)⟩

end GcsReleaseMonitor
